import Mathlib

/-!
Verification of the aggregation layer of `security_dashboard_loader.py`.

The script loads three CSV tables (incidents, vulnerabilities, phishing
campaigns) into an SQLite database and runs nine fixed read-only SQL queries
whose results feed a dashboard and a spreadsheet export.  This file embeds
the data model and the nine queries as pure Lean functions over lists of
records and proves properties of them.

Modelling conventions:
* SQL numeric values (`FLOAT`/`REAL`) are modelled as exact rationals `ℚ`.
* SQL `NULL` is modelled with `Option`.
* `GROUP BY` over unindexed columns is modelled as: collect the distinct
  group keys and emit one aggregate row per key in ascending key order
  (SQLite materialises such groups with a sorter over the group key,
  BINARY collation, so groups are produced in ascending byte order).
* `ORDER BY k DESC` over the grouped rows is modelled as a sort that puts
  rows in descending `k` order and, for equal `k`, in descending group-key
  order: the engine implements the descending sort as an ascending sort
  scanned backwards, so rows that compare equal on `k` come out in the
  reverse of the order in which they entered the sorter (verified against
  sqlite 3.40, the engine family the script runs on).  SQL itself leaves
  the relative order of equal keys unspecified.
* String comparison is byte order on the character codes (SQLite BINARY
  collation); all column values in this data set are ASCII.
-/

namespace SecDash

/-! ## Generic list machinery: a structural insertion sort -/
/-- Insert `a` into `l`, placing it before the first element `b` with
`le a b = true`. -/
def insertLe {α : Type} (le : α → α → Bool) (a : α) : List α → List α
  | [] => [a]
  | b :: l => if le a b then a :: b :: l else b :: insertLe le a l

/-- Insertion sort with a boolean comparison; structural, so it evaluates
by kernel reduction. -/
def sortLe {α : Type} (le : α → α → Bool) : List α → List α
  | [] => []
  | a :: l => insertLe le a (sortLe le l)

/-! ## Distinct group keys (first pass of `GROUP BY`) -/
/-- Fueled worker for `uniqKeys`; fuel makes the recursion structural so
that concrete instances evaluate by kernel reduction. -/
def uniqGo {κ : Type} [DecidableEq κ] : Nat → List κ → List κ
  | _, [] => []
  | 0, _ :: _ => []
  | n + 1, a :: l => a :: uniqGo n (l.filter (fun b => decide (b ≠ a)))

/-- The distinct elements of `l`, in order of first appearance. -/
def uniqKeys {κ : Type} [DecidableEq κ] (l : List κ) : List κ :=
  uniqGo l.length l

/-! ## Byte-order string comparison (SQLite BINARY collation) -/
/-- Lexicographic order on character lists by code point (for ASCII data
this is SQLite's BINARY byte order). -/
def clLe : List Char → List Char → Bool
  | [], _ => true
  | _ :: _, [] => false
  | a :: as, b :: bs =>
    if a.toNat < b.toNat then true
    else if b.toNat < a.toNat then false
    else clLe as bs

/-- String comparison used for `ORDER BY` and `GROUP BY` over TEXT columns. -/
def strLe (s t : String) : Bool := clLe s.data t.data

/-! ## SQLite ROUND to one decimal, over exact rationals -/
/-- SQLite `ROUND(q, 1)`: one decimal, halves rounded away from zero,
idealised over exact rationals. -/
def round1 (q : ℚ) : ℚ :=
  if q < 0 then -((⌊-q * 10 + 1 / 2⌋ : ℚ) / 10) else (⌊q * 10 + 1 / 2⌋ : ℚ) / 10

/-! ## Ordering combinators for ORDER BY -/
def natLeB (a b : Nat) : Bool := decide (a ≤ b)

def natGeB (a b : Nat) : Bool := decide (b ≤ a)

def strGeB (a b : String) : Bool := strLe b a

/-- Compare by a primary key, break ties with a secondary comparison. -/
def byKeys {α κ1 κ2 : Type} [DecidableEq κ1] (f : α → κ1) (le1 : κ1 → κ1 → Bool)
    (g : α → κ2) (le2 : κ2 → κ2 → Bool) (a b : α) : Bool :=
  if f a = f b then le2 (g a) (g b) else le1 (f a) (f b)

/-! ## Data model: the three loaded tables -/
/-- A calendar date (the time-of-day part of the stored timestamps plays no
role in any query). -/
structure SDate where
  year : Nat
  month : Nat
  day : Nat
  deriving DecidableEq

/-- One row of the `incidents` table (columns used by the queries). -/
structure Incident where
  Date_Reported : Option SDate
  Severity : String
  Incident_Type : String
  Status : String
  Response_Time_Min : Option ℚ
  deriving DecidableEq

/-- One row of the `vulnerabilities` table (columns used by the queries). -/
structure Vulnerability where
  Department : String
  Severity : String
  Days_Open : Option ℚ
  Solution_Status : String
  Vulnerability_Title : String
  deriving DecidableEq

/-- One row of the `phishing_campaigns` table (columns used by the queries). -/
structure PhishingCampaign where
  Launch_Date : Option SDate
  Campaign_Name : String
  Department : String
  Click_Rate : String
  deriving DecidableEq

/-! ## strftime month keys -/
def digitChar (n : Nat) : Char := Char.ofNat (48 + n % 10)

def pad2 (n : Nat) : String := ⟨[digitChar (n / 10), digitChar n]⟩

def pad4 (n : Nat) : String :=
  ⟨[digitChar (n / 1000), digitChar (n / 100), digitChar (n / 10), digitChar n]⟩

/-- SQLite `strftime('%Y-%m', Date_Reported)`: NULL for a NULL timestamp,
otherwise the zero-padded `YYYY-MM` string (the data's years fit in four
digits). -/
def strftimeYM : Option SDate → Option String
  | none => none
  | some d => some (pad4 d.year ++ "-" ++ pad2 d.month)

/-- `ORDER BY` over a nullable TEXT column, ascending: SQLite sorts NULLs
first. -/
def optStrLe : Option String → Option String → Bool
  | none, _ => true
  | some _, none => false
  | some s, some t => strLe s t

def sdateLe (a b : SDate) : Bool :=
  if a.year = b.year then
    if a.month = b.month then decide (a.day ≤ b.day) else decide (a.month ≤ b.month)
  else decide (a.year ≤ b.year)

/-- `ORDER BY Launch_Date` ascending (stored as TEXT timestamps whose byte
order is chronological; NULLs first). -/
def optDateLe : Option SDate → Option SDate → Bool
  | none, _ => true
  | some _, none => false
  | some a, some b => sdateLe a b

/-! ## Click-rate parsing: the loader (pandas) and the SQL query -/
def digitVal (c : Char) : Nat := c.toNat - 48

/-- Longest digit prefix (as digit values) and the remaining characters. -/
def takeDigits : List Char → List Nat × List Char
  | [] => ([], [])
  | c :: cs =>
    if c.isDigit then
      let p := takeDigits cs
      (digitVal c :: p.1, p.2)
    else ([], c :: cs)

def natOfDigits (ds : List Nat) : Nat := ds.foldl (fun a d => 10 * a + d) 0

/-- A syntactically parsed decimal literal: sign and digit strings. -/
structure DecLit where
  neg : Bool
  intDs : List Nat
  fracDs : List Nat
  deriving DecidableEq

/-- Numeric value of a parsed literal. -/
def ratOfLit (d : DecLit) : ℚ :=
  (if d.neg then (-1 : ℚ) else 1) *
    ((natOfDigits d.intDs : ℚ) + (natOfDigits d.fracDs : ℚ) / (10 : ℚ) ^ d.fracDs.length)

/-- Parse an unsigned decimal literal prefix: `digits [. digits?] | . digits`.
(Exponent notation, accepted by both full parsers, lies outside the
fragment this data exercises and is not modelled.) -/
def parseUnsigned (neg : Bool) (cs : List Char) : Option (DecLit × List Char) :=
  let p := takeDigits cs
  match p.2 with
  | c :: rest =>
    if c = '.' then
      let q := takeDigits rest
      if p.1.isEmpty && q.1.isEmpty then none
      else some ({ neg := neg, intDs := p.1, fracDs := q.1 }, q.2)
    else if p.1.isEmpty then none
    else some ({ neg := neg, intDs := p.1, fracDs := [] }, c :: rest)
  | [] =>
    if p.1.isEmpty then none
    else some ({ neg := neg, intDs := p.1, fracDs := [] }, [])

/-- Parse an optionally signed decimal literal prefix. -/
def parseDec (cs : List Char) : Option (DecLit × List Char) :=
  match cs with
  | c :: rest =>
    if c = '+' then parseUnsigned false rest
    else if c = '-' then parseUnsigned true rest
    else parseUnsigned false (c :: rest)
  | [] => none

def isWsChar (c : Char) : Bool := c == ' ' || c == '\t' || c == '\n' || c == '\r'

/-- Python `float(s)` on the decimal fragment: optional surrounding
whitespace around a complete signed decimal literal; anything else raises
`ValueError`, modelled as `none`. -/
def pyFloat (s : String) : Option ℚ :=
  match parseDec (s.data.dropWhile isWsChar) with
  | some (d, rest) => if (rest.dropWhile isWsChar).isEmpty then some (ratOfLit d) else none
  | none => none

/-- pandas `.str.rstrip('%')`: remove every trailing percent sign. -/
def rstripPercent (s : String) : String :=
  ⟨(s.data.reverse.dropWhile (fun c => c == '%')).reverse⟩

/-- Loader line 85: `phishing_df['Click_Rate'].str.rstrip('%').astype(float)`.
`none` models the unhandled `ValueError` that aborts the run. -/
def Click_Rate_Percent (s : String) : Option ℚ := pyFloat (rstripPercent s)

/-- SQL `REPLACE(x, '%', '')`: remove every percent sign. -/
def replacePercentEmpty (s : String) : String :=
  ⟨s.data.filter (fun c => !(c == '%'))⟩

/-- SQLite `CAST(text AS FLOAT)`: value of the longest numeric prefix after
optional leading whitespace; 0 when no prefix parses. -/
def sqliteCastFloat (s : String) : ℚ :=
  match parseDec (s.data.dropWhile isWsChar) with
  | some (d, _) => ratOfLit d
  | none => 0

/-- The phishing-trend query's computed column
`CAST(REPLACE(Click_Rate, '%', '') AS FLOAT)`. -/
def sqlClickRatePercent (s : String) : ℚ := sqliteCastFloat (replacePercentEmpty s)

/-! ## The nine dashboard queries (script lines 110-229) -/
/-- Query 1 result row (`mttr_df`). -/
structure MttrRow where
  Month : Option String
  Total_Incidents : Nat
  Critical_Incidents : Nat
  Avg_Response_Hours : ℚ
  deriving DecidableEq

/-- The WHERE clause of query 1: `Status = 'Resolved' AND Response_Time_Min
IS NOT NULL`. -/
def mttrKeep (i : Incident) : Bool :=
  i.Status == "Resolved" && i.Response_Time_Min.isSome

/-- Query 1: MTTR trend by month.  Groups the filtered incidents by
`strftime('%Y-%m', Date_Reported)` and emits, per month in ascending
order, `COUNT(*)`, the count with `Severity = 'Critical'`, and
`ROUND(AVG(Response_Time_Min) / 60.0, 1)`. -/
def mttrRowOf (incidents : List Incident) (m : Option String) : MttrRow :=
  let g := (incidents.filter mttrKeep).filter
    (fun i => strftimeYM i.Date_Reported == m)
  { Month := m,
    Total_Incidents := g.length,
    Critical_Incidents := g.countP (fun i => i.Severity == "Critical"),
    Avg_Response_Hours :=
      round1 ((g.map (fun i => i.Response_Time_Min.getD 0)).sum
        / (g.length : ℚ) / 60) }

def mttr_df (incidents : List Incident) : List MttrRow :=
  let rows := incidents.filter mttrKeep
  let months := sortLe optStrLe
    (uniqKeys (rows.map (fun i => strftimeYM i.Date_Reported)))
  months.map (mttrRowOf incidents)

/-- Query 2 result row (`incident_type_df`). -/
structure IncidentTypeRow where
  Incident_Type : String
  Count : Nat
  Percentage : ℚ
  deriving DecidableEq

/-- The order produced by `ORDER BY Count DESC` over the grouped rows:
count descending; rows with equal counts come out in descending
`Incident_Type` order (see the header notes on the engine's sorter). -/
def countDescLe (a b : IncidentTypeRow) : Bool :=
  byKeys (fun r => r.Count) natGeB (fun r => r.Incident_Type) strGeB a b

/-- Query 2: top incident types.  Groups all incidents by type and emits
`COUNT(*)` and `ROUND(COUNT(*) * 100.0 / (SELECT COUNT(*) FROM incidents), 1)`,
ordered by count descending, truncated to 6 rows. -/
def incTypeRowOf (incidents : List Incident) (t : String) : IncidentTypeRow :=
  { Incident_Type := t,
    Count := incidents.countP (fun i => i.Incident_Type == t),
    Percentage := round1 ((incidents.countP (fun i => i.Incident_Type == t) : ℚ)
      * 100 / (incidents.length : ℚ)) }

def incident_type_df (incidents : List Incident) : List IncidentTypeRow :=
  let types := sortLe strLe (uniqKeys (incidents.map (fun i => i.Incident_Type)))
  let grouped := types.map (incTypeRowOf incidents)
  (sortLe countDescLe grouped).take 6

/-- Query 3 result row (`vuln_hotspot_df`). -/
structure VulnHotspotRow where
  Department : String
  Total_Vulnerabilities : Nat
  Critical_Count : Nat
  Avg_Days_Open : Option ℚ
  deriving DecidableEq

/-- The WHERE clause shared by queries 3, 6 and 7: `Solution_Status = 'Open'`. -/
def isOpenVuln (v : Vulnerability) : Bool := v.Solution_Status == "Open"

def critDescLe (a b : VulnHotspotRow) : Bool :=
  byKeys (fun r => r.Critical_Count) natGeB (fun r => r.Department) strGeB a b

/-- Query 3: vulnerability hotspots.  Open vulnerabilities grouped by
department; emits `COUNT(*)`, critical count and `ROUND(AVG(Days_Open), 1)`
(`AVG` ignores NULLs and is NULL for an all-NULL group), ordered by
critical count descending, truncated to 5 rows. -/
def vuln_hotspot_df (vulns : List Vulnerability) : List VulnHotspotRow :=
  let rows := vulns.filter isOpenVuln
  let depts := sortLe strLe (uniqKeys (rows.map (fun v => v.Department)))
  let grouped := depts.map (fun d =>
    let g := rows.filter (fun v => v.Department == d)
    let known := (g.map (fun v => v.Days_Open)).reduceOption
    { Department := d,
      Total_Vulnerabilities := g.length,
      Critical_Count := g.countP (fun v => v.Severity == "Critical"),
      Avg_Days_Open := if known.length = 0 then none
        else some (round1 (known.sum / (known.length : ℚ))) })
  (sortLe critDescLe grouped).take 5

/-- Query 4 result row (`phishing_trend_df`). -/
structure PhishingTrendRow where
  Launch_Date : Option SDate
  Campaign_Name : String
  Department : String
  Click_Rate_Percent : ℚ
  deriving DecidableEq

/-- Query 4: phishing trend.  One row per campaign with the computed
click-rate percentage, ordered by launch date ascending. -/
def phishing_trend_df (camps : List PhishingCampaign) : List PhishingTrendRow :=
  sortLe (fun a b => optDateLe a.Launch_Date b.Launch_Date)
    (camps.map (fun p =>
      { Launch_Date := p.Launch_Date,
        Campaign_Name := p.Campaign_Name,
        Department := p.Department,
        Click_Rate_Percent := sqlClickRatePercent p.Click_Rate }))

/-- Query 5 result row (`severity_df`). -/
structure SeverityRow where
  Severity : String
  Count : Nat
  deriving DecidableEq

/-- Query 5: incident severity distribution (`GROUP BY Severity`, no ORDER
BY: groups are emitted in ascending key order). -/
def severity_df (incidents : List Incident) : List SeverityRow :=
  (sortLe strLe (uniqKeys (incidents.map (fun i => i.Severity)))).map (fun s =>
    { Severity := s, Count := incidents.countP (fun i => i.Severity == s) })

/-- The CASE expression of query 6 with SQLite NULL semantics: a comparison
against NULL is not true, so no WHEN arm fires for a NULL `Days_Open` and
the ELSE branch labels it `'> 180 days'`. -/
def ageGroup : Option ℚ → String
  | none => "> 180 days"
  | some d =>
    if d < 30 then "< 30 days"
    else if 30 ≤ d ∧ d ≤ 90 then "30-90 days"
    else if 91 ≤ d ∧ d ≤ 180 then "91-180 days"
    else "> 180 days"

/-- Query 6 result row (`vuln_age_df`). -/
structure VulnAgeRow where
  Department : String
  Age_Group : String
  Count : Nat
  deriving DecidableEq

/-- The ORDER BY's CASE over `Age_Group`: canonical band positions 1-4
(ELSE 4). -/
def bandIdx (s : String) : Nat :=
  if s == "< 30 days" then 1
  else if s == "30-90 days" then 2
  else if s == "91-180 days" then 3
  else 4

/-- `ORDER BY Department, CASE Age_Group ... END`: department ascending,
then canonical band order. -/
def ageRowLe (a b : VulnAgeRow) : Bool :=
  byKeys (fun r => r.Department) strLe (fun r => bandIdx r.Age_Group) natLeB a b

/-- The group key of query 6: `(Department, Age_Group)`. -/
def vulnAgeKey (v : Vulnerability) : String × String :=
  (v.Department, ageGroup v.Days_Open)

/-- Ascending order on the two-column group key. -/
def pairStrLe (a b : String × String) : Bool :=
  byKeys (fun k : String × String => k.1) strLe (fun k => k.2) strLe a b

/-- Query 6: vulnerability aging.  Open vulnerabilities grouped by
(department, age band); `HAVING COUNT(*) > 0`; ordered by department then
canonical band order. -/
def vulnAgeRowOf (vulns : List Vulnerability) (k : String × String) : VulnAgeRow :=
  { Department := k.1, Age_Group := k.2,
    Count := (vulns.filter isOpenVuln).countP (fun v =>
      v.Department == k.1 && ageGroup v.Days_Open == k.2) }

def vuln_age_df (vulns : List Vulnerability) : List VulnAgeRow :=
  let rows := vulns.filter isOpenVuln
  let keys := sortLe pairStrLe (uniqKeys (rows.map vulnAgeKey))
  let grouped := keys.map (vulnAgeRowOf vulns)
  sortLe ageRowLe (grouped.filter (fun r => decide (0 < r.Count)))

/-- One cell of `vuln_age_pivot` after `.fillna(0)`: the Count of the
(department, band) row of the long table when present, else 0. -/
def vuln_age_pivot_cell (vulns : List Vulnerability) (d band : String) : Nat :=
  match (vuln_age_df vulns).find? (fun r =>
      r.Department == d && r.Age_Group == band) with
  | some r => r.Count
  | none => 0

/-- The pivoted aging matrix (`vuln_age_df.pivot(...).fillna(0)`): one row
per department of the long table, one column per band present anywhere
(pandas sorts the column labels lexicographically); absent cells are 0. -/
def vuln_age_pivot (vulns : List Vulnerability) : List (String × List Nat) :=
  let long := vuln_age_df vulns
  let cols := sortLe strLe (uniqKeys (long.map (fun r => r.Age_Group)))
  (uniqKeys (long.map (fun r => r.Department))).map
    (fun d => (d, cols.map (fun band => vuln_age_pivot_cell vulns d band)))

/-- Query 7 result row (`vuln_type_df`), including the display column
`Short_Title` added right after the query. -/
structure VulnTypeRow where
  Vulnerability_Title : String
  Count : Nat
  Short_Title : String
  deriving DecidableEq

def titleDescLe (a b : VulnTypeRow) : Bool :=
  byKeys (fun r => r.Count) natGeB (fun r => r.Vulnerability_Title) strGeB a b

/-- Query 7: top vulnerability types.  Open vulnerabilities grouped by
title; ordered by count descending, truncated to 5 rows; `Short_Title` is
the first 25 characters plus an ellipsis marker. -/
def vuln_type_df (vulns : List Vulnerability) : List VulnTypeRow :=
  let rows := vulns.filter isOpenVuln
  let titles := sortLe strLe (uniqKeys (rows.map (fun v => v.Vulnerability_Title)))
  let grouped := titles.map (fun t =>
    { Vulnerability_Title := t,
      Count := rows.countP (fun v => v.Vulnerability_Title == t),
      Short_Title := (⟨t.data.take 25⟩ : String) ++ "..." })
  (sortLe titleDescLe grouped).take 5

/-- Query 8 result row (`status_df`). -/
structure StatusRow where
  Solution_Status : String
  Count : Nat
  deriving DecidableEq

/-- Query 8: vulnerability status breakdown (`GROUP BY Solution_Status`,
no ORDER BY: groups in ascending key order). -/
def status_df (vulns : List Vulnerability) : List StatusRow :=
  (sortLe strLe (uniqKeys (vulns.map (fun v => v.Solution_Status)))).map (fun s =>
    { Solution_Status := s, Count := vulns.countP (fun v => v.Solution_Status == s) })

/-- Query 9 result row (`critical_df`). -/
structure CriticalRow where
  Department : String
  Critical_Count : Nat
  deriving DecidableEq

/-- The WHERE clause of query 9. -/
def isCritOpen (v : Vulnerability) : Bool :=
  v.Severity == "Critical" && v.Solution_Status == "Open"

def critRowDescLe (a b : CriticalRow) : Bool :=
  byKeys (fun r => r.Critical_Count) natGeB (fun r => r.Department) strGeB a b

/-- Query 9: critical open vulnerabilities by department, ordered by count
descending, truncated to 5 rows. -/
def critical_df (vulns : List Vulnerability) : List CriticalRow :=
  let rows := vulns.filter isCritOpen
  let depts := sortLe strLe (uniqKeys (rows.map (fun v => v.Department)))
  let grouped := depts.map (fun d =>
    { Department := d,
      Critical_Count := rows.countP (fun v => v.Department == d) })
  (sortLe critRowDescLe grouped).take 5

/-- All nine summary tables of one run. -/
structure DashboardTables where
  mttr : List MttrRow
  incident_types : List IncidentTypeRow
  vuln_hotspots : List VulnHotspotRow
  phishing_trend : List PhishingTrendRow
  severity : List SeverityRow
  vuln_age : List VulnAgeRow
  vuln_age_matrix : List (String × List Nat)
  vuln_types : List VulnTypeRow
  status : List StatusRow
  critical : List CriticalRow
  deriving DecidableEq

/-- One run of section 4 of the script: all nine queries (plus the aging
pivot) over the three loaded tables. -/
def runDashboard (incidents : List Incident) (vulns : List Vulnerability)
    (camps : List PhishingCampaign) : DashboardTables :=
  { mttr := mttr_df incidents,
    incident_types := incident_type_df incidents,
    vuln_hotspots := vuln_hotspot_df vulns,
    phishing_trend := phishing_trend_df camps,
    severity := severity_df incidents,
    vuln_age := vuln_age_df vulns,
    vuln_age_matrix := vuln_age_pivot vulns,
    vuln_types := vuln_type_df vulns,
    status := status_df vulns,
    critical := critical_df vulns }

/-! ## The spec's aging bands as numeric ranges -/
/-- A single Open vulnerability with NULL days-open (C9 scenario). -/
def nullDaysVuln : Vulnerability :=
  { Department := "IT", Severity := "High", Days_Open := none,
    Solution_Status := "Open", Vulnerability_Title := "T" }

/-- The aging row it produces. -/
def nullDaysRow : VulnAgeRow :=
  { Department := "IT", Age_Group := "> 180 days", Count := 1 }

/-- The end-to-end aging scenario: four Open vulnerabilities in department
"IT" with days-open 10, 45, 95 and 200. -/
def agingScenarioVulns : List Vulnerability :=
  [{ Department := "IT", Severity := "High", Days_Open := some 10,
     Solution_Status := "Open", Vulnerability_Title := "V1" },
   { Department := "IT", Severity := "High", Days_Open := some 45,
     Solution_Status := "Open", Vulnerability_Title := "V2" },
   { Department := "IT", Severity := "High", Days_Open := some 95,
     Solution_Status := "Open", Vulnerability_Title := "V3" },
   { Department := "IT", Severity := "High", Days_Open := some 200,
     Solution_Status := "Open", Vulnerability_Title := "V4" }]

/-- The end-to-end MTTR scenario: three Resolved incidents in 2024-01 with
response times 30, 60 and 90 minutes. -/
def mttrScenario : List Incident :=
  [{ Date_Reported := some { year := 2024, month := 1, day := 5 },
     Severity := "High", Incident_Type := "Phishing", Status := "Resolved",
     Response_Time_Min := some 30 },
   { Date_Reported := some { year := 2024, month := 1, day := 12 },
     Severity := "High", Incident_Type := "Malware", Status := "Resolved",
     Response_Time_Min := some 60 },
   { Date_Reported := some { year := 2024, month := 1, day := 20 },
     Severity := "High", Incident_Type := "Phishing", Status := "Resolved",
     Response_Time_Min := some 90 }]

/-- An incident that only carries an incident type (the other columns are
irrelevant to query 2). -/
def mkTypedIncident (t : String) : Incident :=
  { Date_Reported := none, Severity := "High", Incident_Type := t,
    Status := "Open", Response_Time_Min := none }

/-- Truncation counterexample input: 511 incidents over seven types: five types with 58 incidents each, one
with 220 and one with a single incident.  The six emitted percentages are
`ROUND(5800/511, 1) = 11.4` (five times) and `ROUND(22000/511, 1) = 43.1`,
whose sum is 100.1. -/
def truncIncidents : List Incident :=
  List.replicate 58 (mkTypedIncident "A") ++ (List.replicate 58 (mkTypedIncident "B")
    ++ (List.replicate 58 (mkTypedIncident "C") ++ (List.replicate 58 (mkTypedIncident "D")
    ++ (List.replicate 58 (mkTypedIncident "E") ++ (List.replicate 220 (mkTypedIncident "F")
    ++ [mkTypedIncident "G"])))))

/-- The four aging bands the spec declares. -/
inductive Band
  | lt30
  | from30to90
  | from91to180
  | gt180
  deriving DecidableEq

/-- The label the query uses for each band. -/
def bandLabel : Band → String
  | .lt30 => "< 30 days"
  | .from30to90 => "30-90 days"
  | .from91to180 => "91-180 days"
  | .gt180 => "> 180 days"

/-- The numeric range the spec assigns to each band:
`{<30, 30-90 inclusive, 91-180 inclusive, >180}`. -/
def memBand (d : ℚ) : Band → Prop
  | .lt30 => d < 30
  | .from30to90 => 30 ≤ d ∧ d ≤ 90
  | .from91to180 => 91 ≤ d ∧ d ≤ 180
  | .gt180 => 180 < d

/-! ## Theorems -/

theorem insertLe_perm {α : Type} (le : α → α → Bool) (a : α) (l : List α) :
    (insertLe le a l).Perm (a :: l) := by
  induction l with
  | nil => simp [insertLe]
  | cons b l ih =>
    by_cases h : le a b
    · simp [insertLe, h]
    · simp only [insertLe, h, if_false, Bool.false_eq_true]
      exact ((ih.cons b).trans (List.Perm.swap a b l))

theorem sortLe_perm {α : Type} (le : α → α → Bool) (l : List α) :
    (sortLe le l).Perm l := by
  induction l with
  | nil => simp [sortLe]
  | cons a l ih => exact (insertLe_perm le a (sortLe le l)).trans (ih.cons a)

theorem mem_sortLe {α : Type} {le : α → α → Bool} {a : α} {l : List α} :
    a ∈ sortLe le l ↔ a ∈ l :=
  (sortLe_perm le l).mem_iff

theorem length_sortLe {α : Type} (le : α → α → Bool) (l : List α) :
    (sortLe le l).length = l.length :=
  (sortLe_perm le l).length_eq

theorem pairwise_insertLe {α : Type} {le : α → α → Bool}
    (htrans : ∀ a b c, le a b = true → le b c = true → le a c = true)
    (htotal : ∀ a b, le a b = true ∨ le b a = true) (a : α) {l : List α}
    (hl : l.Pairwise (fun x y => le x y = true)) :
    (insertLe le a l).Pairwise (fun x y => le x y = true) := by
  induction l with
  | nil => simp [insertLe]
  | cons b l ih =>
    rcases List.pairwise_cons.mp hl with ⟨hb, hl'⟩
    by_cases h : le a b = true
    · simp only [insertLe, h, if_true]
      refine List.pairwise_cons.mpr ⟨?_, hl⟩
      intro x hx
      rcases List.mem_cons.mp hx with rfl | hx
      · exact h
      · exact htrans a b x h (hb x hx)
    · simp only [insertLe, h, if_false]
      refine List.pairwise_cons.mpr ⟨?_, ih hl'⟩
      intro x hx
      have hx' := (insertLe_perm le a l).mem_iff.mp hx
      rcases List.mem_cons.mp hx' with rfl | hx''
      · rcases htotal x b with h' | h'
        · exact absurd h' h
        · exact h'
      · exact hb x hx''

theorem pairwise_sortLe {α : Type} {le : α → α → Bool}
    (htrans : ∀ a b c, le a b = true → le b c = true → le a c = true)
    (htotal : ∀ a b, le a b = true ∨ le b a = true) (l : List α) :
    (sortLe le l).Pairwise (fun x y => le x y = true) := by
  induction l with
  | nil => simp [sortLe]
  | cons a l ih => exact pairwise_insertLe htrans htotal a ih

theorem length_filter_lt_cons {κ : Type} (p : κ → Bool) (a : κ) (l : List κ) :
    (l.filter p).length < (a :: l).length := by
  simp only [List.length_cons]
  exact Nat.lt_succ_of_le (l.length_filter_le p)

theorem uniqGo_congr {κ : Type} [DecidableEq κ] :
    ∀ (bound : Nat) (l : List κ), l.length ≤ bound →
      ∀ n m, l.length ≤ n → l.length ≤ m → uniqGo n l = uniqGo m l := by
  intro bound
  induction bound with
  | zero =>
    intro l hl n m _ _
    have : l = [] := List.eq_nil_of_length_eq_zero (Nat.le_zero.mp hl)
    subst this
    cases n <;> cases m <;> rfl
  | succ bound ih =>
    intro l hl n m hn hm
    cases l with
    | nil => cases n <;> cases m <;> rfl
    | cons a l =>
      simp only [List.length_cons] at hl hn hm
      cases n with
      | zero => omega
      | succ n =>
        cases m with
        | zero => omega
        | succ m =>
          show a :: uniqGo n (l.filter (fun b => decide (b ≠ a)))
              = a :: uniqGo m (l.filter (fun b => decide (b ≠ a)))
          have hf : (l.filter (fun b => decide (b ≠ a))).length ≤ l.length :=
            l.length_filter_le _
          rw [ih _ (le_trans hf (by omega)) n m (le_trans hf (by omega))
            (le_trans hf (by omega))]

/-- Unfolding equation for `uniqKeys` on a cons cell. -/
theorem uniqKeys_cons {κ : Type} [DecidableEq κ] (a : κ) (l : List κ) :
    uniqKeys (a :: l) = a :: uniqKeys (l.filter (fun b => decide (b ≠ a))) := by
  have h : uniqKeys (a :: l) =
      a :: uniqGo l.length (l.filter (fun b => decide (b ≠ a))) := rfl
  rw [h]
  unfold uniqKeys
  rw [uniqGo_congr l.length _ (l.length_filter_le _) l.length _
    (l.length_filter_le _) (le_refl _)]

@[simp] theorem uniqKeys_nil {κ : Type} [DecidableEq κ] :
    uniqKeys ([] : List κ) = [] := rfl

theorem mem_of_mem_uniqKeys {κ : Type} [DecidableEq κ] :
    ∀ {l : List κ} {k : κ}, k ∈ uniqKeys l → k ∈ l
  | [], k, hk => by simp at hk
  | a :: l, k, hk => by
    rw [uniqKeys_cons] at hk
    rcases List.mem_cons.mp hk with rfl | hk
    · exact List.mem_cons_self _ _
    · exact List.mem_cons_of_mem a
        (List.mem_of_mem_filter (mem_of_mem_uniqKeys hk))
termination_by l _ _ => l.length
decreasing_by exact length_filter_lt_cons _ _ _

theorem mem_uniqKeys_of_mem {κ : Type} [DecidableEq κ] :
    ∀ {l : List κ} {k : κ}, k ∈ l → k ∈ uniqKeys l
  | [], k, hk => by simp at hk
  | a :: l, k, hk => by
    rw [uniqKeys_cons]
    by_cases hka : k = a
    · exact hka ▸ List.mem_cons_self a _
    · rcases List.mem_cons.mp hk with rfl | hk
      · exact absurd rfl hka
      · have hmem : k ∈ l.filter (fun b => decide (b ≠ a)) :=
          List.mem_filter.mpr ⟨hk, by simpa using hka⟩
        exact List.mem_cons_of_mem a (mem_uniqKeys_of_mem hmem)
termination_by l _ _ => l.length
decreasing_by exact length_filter_lt_cons _ _ _

theorem mem_uniqKeys {κ : Type} [DecidableEq κ] {l : List κ} {k : κ} :
    k ∈ uniqKeys l ↔ k ∈ l :=
  ⟨mem_of_mem_uniqKeys, mem_uniqKeys_of_mem⟩

/-- The counts of the distinct keys add up to the length of the list:
grouping loses no row. -/
theorem sum_countP_uniqKeys {κ : Type} [DecidableEq κ] :
    ∀ (l : List κ),
      ((uniqKeys l).map (fun k => l.countP (fun b => decide (b = k)))).sum
        = l.length
  | [] => by simp
  | a :: l => by
    rw [uniqKeys_cons]
    simp only [List.map_cons, List.sum_cons]
    have hcount_a : (a :: l).countP (fun b => decide (b = a))
        = 1 + l.countP (fun b => decide (b = a)) := by
      rw [List.countP_cons]
      simp [Nat.add_comm]
    have hrest :
        ((uniqKeys (l.filter (fun b => decide (b ≠ a)))).map
          (fun k => (a :: l).countP (fun b => decide (b = k)))).sum
        = ((uniqKeys (l.filter (fun b => decide (b ≠ a)))).map
          (fun k => (l.filter (fun b => decide (b ≠ a))).countP
            (fun b => decide (b = k)))).sum := by
      refine congrArg List.sum (List.map_congr_left ?_)
      intro k hk
      have hkne : k ≠ a := by
        have hkmem := mem_of_mem_uniqKeys hk
        have := (List.mem_filter.mp hkmem).2
        simpa using this
      rw [List.countP_cons]
      rw [if_neg (by simp [Ne.symm hkne]), Nat.add_zero, List.countP_filter]
      refine congrArg (fun p => l.countP p) ?_
      funext b
      by_cases hb : b = k
      · subst hb; simp [hkne]
      · simp [hb]
    rw [hrest, sum_countP_uniqKeys (l.filter (fun b => decide (b ≠ a))),
      hcount_a]
    have hsplit : l.length = l.countP (fun b => decide (b = a))
        + (l.filter (fun b => decide (b ≠ a))).length := by
      rw [show ((l.filter (fun b => decide (b ≠ a))).length) = l.countP (fun b => decide (b ≠ a)) from (List.countP_eq_length_filter _ l).symm]
      have h0 := List.length_eq_countP_add_countP (fun b => decide (b = a)) l
      rw [h0]
      refine congrArg (fun m => l.countP (fun b => decide (b = a)) + m) ?_
      refine congrArg (fun p => l.countP p) ?_
      funext b
      by_cases hb : b = a <;> simp [hb]
    simp only [List.length_cons, hsplit]
    omega
termination_by l => l.length
decreasing_by exact length_filter_lt_cons _ _ _

theorem clLe_total : ∀ a b : List Char, clLe a b = true ∨ clLe b a = true
  | [], _ => Or.inl rfl
  | _ :: _, [] => Or.inr rfl
  | a :: as, b :: bs => by
    by_cases h1 : a.toNat < b.toNat
    · exact Or.inl (by simp [clLe, h1])
    · by_cases h2 : b.toNat < a.toNat
      · exact Or.inr (by simp [clLe, h1, h2])
      · rcases clLe_total as bs with h | h
        · exact Or.inl (by simp [clLe, h1, h2, h])
        · exact Or.inr (by simp [clLe, h1, h2, h])

theorem clLe_trans : ∀ a b c : List Char,
    clLe a b = true → clLe b c = true → clLe a c = true
  | [], _, _ => fun _ _ => rfl
  | a :: as, [], c => fun h _ => by simp [clLe] at h
  | a :: as, b :: bs, [] => fun _ h => by simp [clLe] at h
  | a :: as, b :: bs, c :: cs => by
    intro h1 h2
    simp only [clLe] at h1 h2 ⊢
    by_cases hab : a.toNat < b.toNat
    · by_cases hbc : b.toNat < c.toNat
      · have : a.toNat < c.toNat := Nat.lt_trans hab hbc
        simp [this]
      · by_cases hcb : c.toNat < b.toNat
        · simp [hbc, hcb] at h2
        · have hbceq : b.toNat = c.toNat := Nat.le_antisymm
            (Nat.le_of_not_lt hcb) (Nat.le_of_not_lt hbc)
          have : a.toNat < c.toNat := hbceq ▸ hab
          simp [this]
    · by_cases hba : b.toNat < a.toNat
      · simp [hab, hba] at h1
      · have habeq : a.toNat = b.toNat := Nat.le_antisymm
          (Nat.le_of_not_lt hba) (Nat.le_of_not_lt hab)
        simp only [hab, if_false, hba, if_false] at h1
        by_cases hbc : b.toNat < c.toNat
        · have : a.toNat < c.toNat := habeq ▸ hbc
          simp [this]
        · by_cases hcb : c.toNat < b.toNat
          · simp [hbc, hcb] at h2
          · simp only [hbc, if_false, hcb, if_false] at h2
            have h3 : ¬a.toNat < c.toNat := by omega
            have h4 : ¬c.toNat < a.toNat := by omega
            simp [h3, h4, clLe_trans as bs cs h1 h2]

theorem char_toNat_inj {a b : Char} (h : a.toNat = b.toNat) : a = b := by
  have hval : a.val = b.val := by
    have h2 : a.val.toNat = b.val.toNat := h
    exact UInt32.toNat.inj h2
  exact Char.ext hval

theorem clLe_antisymm : ∀ a b : List Char,
    clLe a b = true → clLe b a = true → a = b
  | [], [] => fun _ _ => rfl
  | [], _ :: _ => fun _ h => by simp [clLe] at h
  | _ :: _, [] => fun h _ => by simp [clLe] at h
  | a :: as, b :: bs => by
    intro h1 h2
    simp only [clLe] at h1 h2
    by_cases hab : a.toNat < b.toNat
    · have : ¬b.toNat < a.toNat := by omega
      simp [hab, this] at h2
    · by_cases hba : b.toNat < a.toNat
      · simp [hab, hba] at h1
      · have habeq : a.toNat = b.toNat := by omega
        simp only [hab, if_false, hba, if_false] at h1 h2
        rw [char_toNat_inj habeq, clLe_antisymm as bs h1 h2]

theorem strLe_total (s t : String) : strLe s t = true ∨ strLe t s = true :=
  clLe_total s.data t.data

theorem strLe_trans {s t u : String} (h1 : strLe s t = true)
    (h2 : strLe t u = true) : strLe s u = true :=
  clLe_trans s.data t.data u.data h1 h2

theorem strLe_antisymm {s t : String} (h1 : strLe s t = true)
    (h2 : strLe t s = true) : s = t := by
  cases s with
  | mk ds =>
    cases t with
    | mk dt =>
      have : ds = dt := clLe_antisymm ds dt h1 h2
      rw [this]

theorem round1_nonneg {q : ℚ} (hq : 0 ≤ q) : 0 ≤ round1 q := by
  rw [round1, if_neg (not_lt.mpr hq)]
  have h0 : (0 : ℤ) ≤ ⌊q * 10 + 1 / 2⌋ := by
    refine Int.floor_nonneg.mpr ?_
    positivity
  positivity

theorem round1_le (q : ℚ) (hq : 0 ≤ q) : round1 q ≤ q + 1 / 20 := by
  rw [round1, if_neg (not_lt.mpr hq)]
  have h1 : (⌊q * 10 + 1 / 2⌋ : ℚ) ≤ q * 10 + 1 / 2 := Int.floor_le _
  nlinarith

theorem round1_ge (q : ℚ) (hq : 0 ≤ q) : q - 1 / 20 ≤ round1 q := by
  rw [round1, if_neg (not_lt.mpr hq)]
  have h1 : q * 10 + 1 / 2 - 1 < (⌊q * 10 + 1 / 2⌋ : ℚ) := Int.sub_one_lt_floor _
  nlinarith

theorem abs_round1_sub_le (q : ℚ) (hq : 0 ≤ q) : |round1 q - q| ≤ 1 / 20 := by
  rw [abs_le]
  constructor
  · have := round1_ge q hq
    linarith
  · have := round1_le q hq
    linarith

theorem byKeys_total {α κ1 κ2 : Type} [DecidableEq κ1] {f : α → κ1}
    {le1 : κ1 → κ1 → Bool} {g : α → κ2} {le2 : κ2 → κ2 → Bool}
    (h1 : ∀ x y, le1 x y = true ∨ le1 y x = true)
    (h2 : ∀ x y, le2 x y = true ∨ le2 y x = true) (a b : α) :
    byKeys f le1 g le2 a b = true ∨ byKeys f le1 g le2 b a = true := by
  unfold byKeys
  by_cases hf : f a = f b
  · rw [if_pos hf, if_pos hf.symm]
    exact h2 (g a) (g b)
  · rw [if_neg hf, if_neg (fun h => hf h.symm)]
    exact h1 (f a) (f b)

theorem byKeys_trans {α κ1 κ2 : Type} [DecidableEq κ1] {f : α → κ1}
    {le1 : κ1 → κ1 → Bool} {g : α → κ2} {le2 : κ2 → κ2 → Bool}
    (h1t : ∀ x y z, le1 x y = true → le1 y z = true → le1 x z = true)
    (h1a : ∀ x y, le1 x y = true → le1 y x = true → x = y)
    (h2t : ∀ x y z, le2 x y = true → le2 y z = true → le2 x z = true)
    (a b c : α) (hab : byKeys f le1 g le2 a b = true)
    (hbc : byKeys f le1 g le2 b c = true) : byKeys f le1 g le2 a c = true := by
  unfold byKeys at hab hbc ⊢
  by_cases hfab : f a = f b
  · rw [if_pos hfab] at hab
    by_cases hfbc : f b = f c
    · rw [if_pos hfbc] at hbc
      rw [if_pos (hfab.trans hfbc)]
      exact h2t _ _ _ hab hbc
    · rw [if_neg hfbc] at hbc
      rw [if_neg (fun h => hfbc (hfab.symm.trans h)), hfab]
      exact hbc
  · rw [if_neg hfab] at hab
    by_cases hfbc : f b = f c
    · rw [if_neg (fun h => hfab (h.trans hfbc.symm)), ← hfbc]
      exact hab
    · rw [if_neg hfbc] at hbc
      have hac : le1 (f a) (f c) = true := h1t _ _ _ hab hbc
      by_cases hfac : f a = f c
      · exact absurd (h1a _ _ hab (hfac ▸ hbc)) hfab
      · rw [if_neg hfac]
        exact hac

theorem natGeB_total (x y : Nat) : natGeB x y = true ∨ natGeB y x = true := by
  unfold natGeB
  rcases Nat.le_total x y with h | h
  · exact Or.inr (by simpa using h)
  · exact Or.inl (by simpa using h)

theorem natGeB_trans (x y z : Nat) (h1 : natGeB x y = true)
    (h2 : natGeB y z = true) : natGeB x z = true := by
  simp only [natGeB, decide_eq_true_eq] at h1 h2 ⊢
  omega

theorem natGeB_antisymm (x y : Nat) (h1 : natGeB x y = true)
    (h2 : natGeB y x = true) : x = y := by
  simp only [natGeB, decide_eq_true_eq] at h1 h2
  omega

theorem natLeB_total (x y : Nat) : natLeB x y = true ∨ natLeB y x = true := by
  unfold natLeB
  rcases Nat.le_total x y with h | h
  · exact Or.inl (by simpa using h)
  · exact Or.inr (by simpa using h)

theorem natLeB_trans (x y z : Nat) (h1 : natLeB x y = true)
    (h2 : natLeB y z = true) : natLeB x z = true := by
  simp only [natLeB, decide_eq_true_eq] at h1 h2 ⊢
  omega

theorem strGeB_total (x y : String) : strGeB x y = true ∨ strGeB y x = true :=
  strLe_total y x

theorem strGeB_trans (x y z : String) (h1 : strGeB x y = true)
    (h2 : strGeB y z = true) : strGeB x z = true :=
  strLe_trans h2 h1

theorem optStrLe_total (x y : Option String) :
    optStrLe x y = true ∨ optStrLe y x = true := by
  cases x with
  | none => exact Or.inl rfl
  | some s =>
    cases y with
    | none => exact Or.inr rfl
    | some t => exact strLe_total s t

theorem optStrLe_trans (x y z : Option String) (h1 : optStrLe x y = true)
    (h2 : optStrLe y z = true) : optStrLe x z = true := by
  cases x with
  | none => rfl
  | some s =>
    cases y with
    | none => simp [optStrLe] at h1
    | some t =>
      cases z with
      | none => simp [optStrLe] at h2
      | some u => exact strLe_trans h1 h2

/-! ## Helper lemmas: the aging query -/
theorem vulnAge_pred_eq (v : Vulnerability) (k : String × String) :
    (v.Department == k.1 && ageGroup v.Days_Open == k.2)
      = decide (vulnAgeKey v = k) := by
  by_cases h1 : v.Department = k.1 <;> by_cases h2 : ageGroup v.Days_Open = k.2 <;>
    simp [vulnAgeKey, Prod.ext_iff, h1, h2]

theorem vulnAgeRowOf_count_pos {vulns : List Vulnerability} {k : String × String}
    (hk : k ∈ (vulns.filter isOpenVuln).map vulnAgeKey) :
    0 < (vulnAgeRowOf vulns k).Count := by
  rcases List.mem_map.mp hk with ⟨v, hv, rfl⟩
  exact List.countP_pos_iff.mpr ⟨v, hv, by simp [vulnAgeKey]⟩

/-- Characterisation of the rows of the long-form aging table. -/
theorem mem_vuln_age_df {vulns : List Vulnerability} {r : VulnAgeRow} :
    r ∈ vuln_age_df vulns ↔
      ∃ k, k ∈ (vulns.filter isOpenVuln).map vulnAgeKey ∧ r = vulnAgeRowOf vulns k := by
  simp only [vuln_age_df]
  constructor
  · intro hr
    have hr2 := mem_sortLe.mp hr
    have hr3 := List.mem_filter.mp hr2
    rcases List.mem_map.mp hr3.1 with ⟨k, hk, rfl⟩
    exact ⟨k, mem_uniqKeys.mp (mem_sortLe.mp hk), rfl⟩
  · rintro ⟨k, hk, rfl⟩
    refine mem_sortLe.mpr (List.mem_filter.mpr
      ⟨List.mem_map.mpr ⟨k, mem_sortLe.mpr (mem_uniqKeys.mpr hk), rfl⟩, ?_⟩)
    simpa using vulnAgeRowOf_count_pos hk

/-- Each Count of the long-form aging table counts exactly the open
vulnerabilities of its (department, band) pair. -/
theorem vuln_age_count_spec {vulns : List Vulnerability} {r : VulnAgeRow}
    (hr : r ∈ vuln_age_df vulns) :
    r.Count = vulns.countP (fun v =>
      isOpenVuln v && (v.Department == r.Department && ageGroup v.Days_Open == r.Age_Group)) := by
  rcases mem_vuln_age_df.mp hr with ⟨k, _, rfl⟩
  simp only [vulnAgeRowOf]
  rw [List.countP_filter]
  exact congrArg (fun p => vulns.countP p) (funext fun v => by rw [Bool.and_comm])

/-- The pivoted cell equals the raw count of open vulnerabilities of its
(department, band) pair; in particular an absent pair yields 0 (the
`fillna(0)` contract). -/
theorem vuln_age_pivot_cell_spec (vulns : List Vulnerability) (d band : String) :
    vuln_age_pivot_cell vulns d band
      = vulns.countP (fun v =>
          isOpenVuln v && (v.Department == d && ageGroup v.Days_Open == band)) := by
  rcases hfind : (vuln_age_df vulns).find? (fun r =>
      r.Department == d && r.Age_Group == band) with _ | r
  · have hcell : vuln_age_pivot_cell vulns d band = 0 := by
      unfold vuln_age_pivot_cell
      rw [hfind]
    rw [hcell]
    have hnone := List.find?_eq_none.mp hfind
    by_contra hne
    have hpos : 0 < vulns.countP (fun v =>
        isOpenVuln v && (v.Department == d && ageGroup v.Days_Open == band)) := by
      rcases Nat.eq_zero_or_pos (vulns.countP (fun v =>
        isOpenVuln v && (v.Department == d && ageGroup v.Days_Open == band))) with h | h
      · exact absurd h.symm hne
      · exact h
    rcases List.countP_pos_iff.mp hpos with ⟨v, hv, hvp⟩
    simp only [Bool.and_eq_true, beq_iff_eq] at hvp
    obtain ⟨hopen, hdept, hband⟩ := hvp
    have hvrows : v ∈ vulns.filter isOpenVuln := List.mem_filter.mpr ⟨hv, hopen⟩
    have hk : (d, band) ∈ (vulns.filter isOpenVuln).map vulnAgeKey :=
      List.mem_map.mpr ⟨v, hvrows, by simp [vulnAgeKey, hdept, hband]⟩
    have hrow := mem_vuln_age_df.mpr ⟨(d, band), hk, rfl⟩
    have hcontra := hnone _ hrow
    simp [vulnAgeRowOf] at hcontra
  · have hcell : vuln_age_pivot_cell vulns d band = r.Count := by
      unfold vuln_age_pivot_cell
      rw [hfind]
    rw [hcell]
    have hr := List.mem_of_find?_eq_some hfind
    have hp := List.find?_some hfind
    simp only [Bool.and_eq_true, beq_iff_eq] at hp
    obtain ⟨hd, hb⟩ := hp
    have hc := vuln_age_count_spec hr
    rw [hd, hb] at hc
    exact hc

/-- Grouping by (department, band) loses no open vulnerability: the Counts
of the long-form table sum to the number of open vulnerabilities. -/
theorem vuln_age_counts_total (vulns : List Vulnerability) :
    ((vuln_age_df vulns).map (fun r => r.Count)).sum
      = (vulns.filter isOpenVuln).length := by
  simp only [vuln_age_df]
  have hall : ∀ r ∈ (sortLe pairStrLe
        (uniqKeys ((vulns.filter isOpenVuln).map vulnAgeKey))).map (vulnAgeRowOf vulns),
      (fun r : VulnAgeRow => decide (0 < r.Count)) r = true := by
    intro r hr
    rcases List.mem_map.mp hr with ⟨k, hk, rfl⟩
    simpa using vulnAgeRowOf_count_pos (mem_uniqKeys.mp (mem_sortLe.mp hk))
  rw [List.filter_eq_self.mpr hall]
  rw [List.Perm.sum_eq ((sortLe_perm ageRowLe _).map (fun r => r.Count))]
  rw [List.map_map]
  rw [List.Perm.sum_eq ((sortLe_perm pairStrLe _).map
    ((fun r : VulnAgeRow => r.Count) ∘ vulnAgeRowOf vulns))]
  have hcong : ∀ k ∈ uniqKeys ((vulns.filter isOpenVuln).map vulnAgeKey),
      ((fun r : VulnAgeRow => r.Count) ∘ vulnAgeRowOf vulns) k
        = List.countP (fun x => decide (x = k))
            ((vulns.filter isOpenVuln).map vulnAgeKey) := by
    intro k _
    show (vulnAgeRowOf vulns k).Count = _
    simp only [vulnAgeRowOf, List.countP_map]
    refine congrArg (fun p => List.countP p (vulns.filter isOpenVuln)) ?_
    funext v
    simpa [Function.comp] using vulnAge_pred_eq v k
  rw [List.map_congr_left hcong]
  rw [sum_countP_uniqKeys ((vulns.filter isOpenVuln).map vulnAgeKey)]
  exact List.length_map _ _

/-! ## Helper lemmas: ordering -/
theorem ageRowLe_total (a b : VulnAgeRow) :
    ageRowLe a b = true ∨ ageRowLe b a = true :=
  byKeys_total strLe_total natLeB_total a b

theorem ageRowLe_trans (a b c : VulnAgeRow) (h1 : ageRowLe a b = true)
    (h2 : ageRowLe b c = true) : ageRowLe a c = true :=
  @byKeys_trans VulnAgeRow String Nat _ (fun r => r.Department) strLe
    (fun r => bandIdx r.Age_Group) natLeB
    (fun _ _ _ hxy hyz => strLe_trans hxy hyz)
    (fun _ _ hxy hyx => strLe_antisymm hxy hyx)
    (fun x y z hxy hyz => natLeB_trans x y z hxy hyz) a b c h1 h2

/-! ## Helper lemmas: click-rate parsing -/
theorem parseDec_head_not_ws {cs : List Char} {d : DecLit} {r : List Char}
    (h : parseDec cs = some (d, r)) : cs.dropWhile isWsChar = cs := by
  cases cs with
  | nil => exact Option.noConfusion h
  | cons c rest =>
    have hws : isWsChar c = false := by
      by_contra hb
      have htrue : isWsChar c = true := by
        cases hcv : isWsChar c
        · exact absurd hcv hb
        · rfl
      have hc : ((c = ' ' ∨ c = '\t') ∨ c = '\n') ∨ c = '\r' := by
        simpa [isWsChar] using htrue
      rcases hc with ((rfl | rfl) | rfl) | rfl
      · rw [show parseDec (' ' :: rest) = none from rfl] at h; exact Option.noConfusion h
      · rw [show parseDec ('\t' :: rest) = none from rfl] at h; exact Option.noConfusion h
      · rw [show parseDec ('\n' :: rest) = none from rfl] at h; exact Option.noConfusion h
      · rw [show parseDec ('\r' :: rest) = none from rfl] at h; exact Option.noConfusion h
    simp [List.dropWhile_cons, hws]

theorem pyFloat_of_full_parse {t : String} {d : DecLit}
    (h : parseDec t.data = some (d, [])) : pyFloat t = some (ratOfLit d) := by
  unfold pyFloat
  rw [parseDec_head_not_ws h, h]
  simp

theorem sqliteCastFloat_of_parse {t : String} {d : DecLit} {r : List Char}
    (h : parseDec t.data = some (d, r)) : sqliteCastFloat t = ratOfLit d := by
  unfold sqliteCastFloat
  rw [parseDec_head_not_ws h, h]

theorem dropWhile_pct_of_no_pct {l : List Char} (h : ∀ c ∈ l, c ≠ '%') :
    l.dropWhile (fun c => c == '%') = l := by
  cases l with
  | nil => rfl
  | cons a l =>
    have ha : (a == '%') = false := by
      have := h a (List.mem_cons_self a l)
      simpa using this
    simp [List.dropWhile_cons, ha]

theorem rstripPercent_append {t : String} (h : ∀ c ∈ t.data, c ≠ '%') :
    rstripPercent (t ++ "%") = t := by
  rcases t with ⟨td⟩
  have hdata : ((⟨td⟩ : String) ++ "%").data = td ++ ['%'] := rfl
  unfold rstripPercent
  rw [hdata, List.reverse_append]
  have h1 : ((['%'] : List Char).reverse ++ td.reverse) = '%' :: td.reverse := by simp
  rw [h1, List.dropWhile_cons]
  have h2 : (('%' : Char) == '%') = true := rfl
  rw [h2]
  simp only [if_true]
  rw [dropWhile_pct_of_no_pct (fun c hc => h c (by simpa using hc))]
  rw [List.reverse_reverse]

theorem replacePercent_append {t : String} (h : ∀ c ∈ t.data, c ≠ '%') :
    replacePercentEmpty (t ++ "%") = t := by
  rcases t with ⟨td⟩
  have hdata : ((⟨td⟩ : String) ++ "%").data = td ++ ['%'] := rfl
  unfold replacePercentEmpty
  rw [hdata, List.filter_append]
  have h1 : ((['%'] : List Char).filter (fun c => !(c == '%'))) = [] := rfl
  rw [h1, List.append_nil]
  rw [List.filter_eq_self.mpr (fun c hc => by simpa using h c hc)]

/-! ## Claim theorems -/
/-- C10: for a well-formed numeric literal followed by a single trailing
percent sign, the loader's derived column (strip trailing `'%'`, then
`float`) and the phishing-trend query's computed column (replace every
`'%'`, then `CAST AS FLOAT`) agree on the numeric value. -/
theorem clickRate_loader_query_agree (t : String) (d : DecLit)
    (hparse : parseDec t.data = some (d, []))
    (hnopct : ∀ c ∈ t.data, c ≠ '%') :
    Click_Rate_Percent (t ++ "%") = some (ratOfLit d)
      ∧ sqlClickRatePercent (t ++ "%") = ratOfLit d := by
  constructor
  · unfold Click_Rate_Percent
    rw [rstripPercent_append hnopct]
    exact pyFloat_of_full_parse hparse
  · unfold sqlClickRatePercent
    rw [replacePercent_append hnopct]
    exact sqliteCastFloat_of_parse hparse

/-- Witness for C10 at the input `"12.5%"`. -/
theorem clickRate_loader_query_agree_witness :
    Click_Rate_Percent "12.5%" = some (25 / 2)
      ∧ sqlClickRatePercent "12.5%" = 25 / 2 := by
  have h := clickRate_loader_query_agree "12.5"
    { neg := false, intDs := [1, 2], fracDs := [5] } (by decide) (by decide)
  have hv : ratOfLit { neg := false, intDs := [1, 2], fracDs := [5] } = 25 / 2 := by
    norm_num [ratOfLit, natOfDigits]
  have heq : ("12.5" ++ "%" : String) = "12.5%" := by decide
  rw [hv, heq] at h
  exact h

/-- C6 (code bug): the documented good cases parse as specified
(`"12.5%" → 12.5`, `"100%" → 100.0`), but a malformed value such as
`"abc"` is not flagged: the loader's `astype(float)` raises an unhandled
`ValueError` (modelled as `none`) aborting the whole run, and the SQL
query's `CAST` silently coerces it to `0.0`. -/
theorem clickRate_malformed_behaviour :
    Click_Rate_Percent "12.5%" = some (25 / 2)
      ∧ Click_Rate_Percent "100%" = some 100
      ∧ sqlClickRatePercent "12.5%" = 25 / 2
      ∧ sqlClickRatePercent "100%" = 100
      ∧ Click_Rate_Percent "abc" = none
      ∧ sqlClickRatePercent "abc" = 0 := by
  have e1 : rstripPercent "12.5%" = "12.5" := by decide
  have e2 : rstripPercent "100%" = "100" := by decide
  have e3 : rstripPercent "abc" = "abc" := by decide
  have p1 : parseDec ("12.5".data.dropWhile isWsChar)
      = some ({ neg := false, intDs := [1, 2], fracDs := [5] }, []) := by decide
  have p2 : parseDec ("100".data.dropWhile isWsChar)
      = some ({ neg := false, intDs := [1, 0, 0], fracDs := [] }, []) := by decide
  have p3 : parseDec ("abc".data.dropWhile isWsChar) = none := by decide
  have r1 : replacePercentEmpty "12.5%" = "12.5" := by decide
  have r2 : replacePercentEmpty "100%" = "100" := by decide
  have r3 : replacePercentEmpty "abc" = "abc" := by decide
  refine ⟨?_, ?_, ?_, ?_, ?_, ?_⟩
  · rw [Click_Rate_Percent, e1, pyFloat, p1]
    norm_num [ratOfLit, natOfDigits]
  · rw [Click_Rate_Percent, e2, pyFloat, p2]
    norm_num [ratOfLit, natOfDigits]
  · rw [sqlClickRatePercent, r1, sqliteCastFloat, p1]
    norm_num [ratOfLit, natOfDigits]
  · rw [sqlClickRatePercent, r2, sqliteCastFloat, p2]
    norm_num [ratOfLit, natOfDigits]
  · rw [Click_Rate_Percent, e3, pyFloat, p3]
  · rw [sqlClickRatePercent, r3, sqliteCastFloat, p3]

/-- C1 (corrected): for every non-null days-open outside the open interval
(90, 91) there is exactly one spec band containing it and the CASE
expression assigns exactly that band's label (in particular 30 and 90 get
`'30-90 days'` and 91 gets `'91-180 days'`); but a value strictly between
90 and 91 lies in none of the four declared ranges, and the CASE's ELSE
branch labels it `'> 180 days'`. -/
theorem aging_band_assignment (d : ℚ) :
    (d ≤ 90 ∨ 91 ≤ d →
      (∃! b : Band, memBand d b)
        ∧ ∀ b : Band, memBand d b → ageGroup (some d) = bandLabel b)
    ∧ (90 < d → d < 91 →
      (∀ b : Band, ¬ memBand d b) ∧ ageGroup (some d) = "> 180 days") := by
  constructor
  · intro hd
    by_cases h30 : d < 30
    · have huniq : ∀ b : Band, memBand d b → b = Band.lt30 := by
        intro b hb
        cases b with
        | lt30 => rfl
        | from30to90 => simp only [memBand] at hb; linarith [hb.1]
        | from91to180 => simp only [memBand] at hb; linarith [hb.1]
        | gt180 => simp only [memBand] at hb; linarith
      refine ⟨⟨Band.lt30, h30, huniq⟩, ?_⟩
      intro b hb
      rw [huniq b hb]
      simp [ageGroup, bandLabel, h30]
    · by_cases h90 : d ≤ 90
      · have h30' : (30 : ℚ) ≤ d := not_lt.mp h30
        have huniq : ∀ b : Band, memBand d b → b = Band.from30to90 := by
          intro b hb
          cases b with
          | lt30 => simp only [memBand] at hb; linarith
          | from30to90 => rfl
          | from91to180 => simp only [memBand] at hb; linarith [hb.1]
          | gt180 => simp only [memBand] at hb; linarith
        refine ⟨⟨Band.from30to90, ⟨h30', h90⟩, huniq⟩, ?_⟩
        intro b hb
        rw [huniq b hb]
        simp [ageGroup, bandLabel, h30, h30', h90]
      · have h91 : (91 : ℚ) ≤ d := by
          rcases hd with h | h
          · exact absurd h h90
          · exact h
        by_cases h180 : d ≤ 180
        · have huniq : ∀ b : Band, memBand d b → b = Band.from91to180 := by
            intro b hb
            cases b with
            | lt30 => simp only [memBand] at hb; linarith
            | from30to90 => simp only [memBand] at hb; linarith [hb.2]
            | from91to180 => rfl
            | gt180 => simp only [memBand] at hb; linarith
          refine ⟨⟨Band.from91to180, ⟨h91, h180⟩, huniq⟩, ?_⟩
          intro b hb
          rw [huniq b hb]
          have c1 : ¬ d < 30 := h30
          have c2 : ¬ ((30 : ℚ) ≤ d ∧ d ≤ 90) := fun hx => h90 hx.2
          simp [ageGroup, bandLabel, c1, c2, h91, h180]
        · have h180' : (180 : ℚ) < d := not_le.mp h180
          have huniq : ∀ b : Band, memBand d b → b = Band.gt180 := by
            intro b hb
            cases b with
            | lt30 => simp only [memBand] at hb; linarith
            | from30to90 => simp only [memBand] at hb; linarith [hb.2]
            | from91to180 => simp only [memBand] at hb; linarith [hb.2]
            | gt180 => rfl
          refine ⟨⟨Band.gt180, h180', huniq⟩, ?_⟩
          intro b hb
          rw [huniq b hb]
          have c1 : ¬ d < 30 := h30
          have c2 : ¬ ((30 : ℚ) ≤ d ∧ d ≤ 90) := fun hx => h90 hx.2
          have c3 : ¬ ((91 : ℚ) ≤ d ∧ d ≤ 180) := fun hx => h180 hx.2
          simp [ageGroup, bandLabel, c1, c2, c3]
  · intro h1 h2
    have c1 : ¬ d < 30 := by linarith
    have c2 : ¬ ((30 : ℚ) ≤ d ∧ d ≤ 90) := fun hx => by linarith [hx.2]
    have c3 : ¬ ((91 : ℚ) ≤ d ∧ d ≤ 180) := fun hx => by linarith [hx.1]
    constructor
    · intro b
      cases b with
      | lt30 => intro hx; simp only [memBand] at hx; linarith
      | from30to90 => intro hx; simp only [memBand] at hx; linarith [hx.2]
      | from91to180 => intro hx; simp only [memBand] at hx; linarith [hx.1]
      | gt180 => intro hx; simp only [memBand] at hx; linarith
    · simp [ageGroup, c1, c2, c3]

/-- Witness for C1 (amended) at the boundary inputs 30, 90 and 91. -/
theorem aging_band_assignment_witness :
    ageGroup (some (30 : ℚ)) = "30-90 days"
      ∧ ageGroup (some (90 : ℚ)) = "30-90 days"
      ∧ ageGroup (some (91 : ℚ)) = "91-180 days" :=
  ⟨((aging_band_assignment 30).1 (Or.inl (by norm_num))).2 Band.from30to90
      ⟨by norm_num, by norm_num⟩,
    ((aging_band_assignment 90).1 (Or.inl (by norm_num))).2 Band.from30to90
      ⟨by norm_num, by norm_num⟩,
    ((aging_band_assignment 91).1 (Or.inr (by norm_num))).2 Band.from91to180
      ⟨by norm_num, by norm_num⟩⟩

/-- Counterexample for C1 as stated: days-open 90.5 lies in none of the
four declared bands (so band membership is not total over non-integer
values), yet the CASE expression labels it `'> 180 days'`. -/
theorem aging_band_assignment_counterexample :
    (∀ b : Band, ¬ memBand ((181 : ℚ) / 2) b)
      ∧ ageGroup (some ((181 : ℚ) / 2)) = "> 180 days" := by
  constructor
  · intro b
    cases b with
    | lt30 => intro hx; simp only [memBand] at hx; norm_num at hx
    | from30to90 => intro hx; simp only [memBand] at hx; rcases hx with ⟨h, h2⟩; norm_num at h2
    | from91to180 => intro hx; simp only [memBand] at hx; rcases hx with ⟨h, h2⟩; norm_num at h
    | gt180 => intro hx; simp only [memBand] at hx; norm_num at hx
  · norm_num [ageGroup]

/-- C9: the CASE expression's ELSE branch catches a NULL days-open, so an
Open vulnerability with NULL days-open is assigned the `'> 180 days'` band;
the aging query counts every open vulnerability (no record is dropped), and
a single Open record with NULL days-open yields exactly the row
(department, `'> 180 days'`, 1). -/
theorem null_days_open_in_gt180 :
    ageGroup none = "> 180 days"
      ∧ (∀ vulns : List Vulnerability,
          ((vuln_age_df vulns).map (fun r => r.Count)).sum
            = (vulns.filter isOpenVuln).length)
      ∧ vuln_age_df [nullDaysVuln] = [nullDaysRow] :=
  ⟨rfl, vuln_age_counts_total, by decide⟩

/-- C8: each of the nine aggregations is a pure function of the loaded
tables — two runs over identical inputs are equal, and each summary table
depends only on its own input table, independent of the other queries. -/
theorem aggregations_pure (incidents : List Incident) (vulns : List Vulnerability)
    (camps : List PhishingCampaign) :
    runDashboard incidents vulns camps = runDashboard incidents vulns camps
      ∧ (runDashboard incidents vulns camps).mttr = mttr_df incidents
      ∧ (runDashboard incidents vulns camps).incident_types = incident_type_df incidents
      ∧ (runDashboard incidents vulns camps).vuln_hotspots = vuln_hotspot_df vulns
      ∧ (runDashboard incidents vulns camps).phishing_trend = phishing_trend_df camps
      ∧ (runDashboard incidents vulns camps).severity = severity_df incidents
      ∧ (runDashboard incidents vulns camps).vuln_age = vuln_age_df vulns
      ∧ (runDashboard incidents vulns camps).vuln_age_matrix = vuln_age_pivot vulns
      ∧ (runDashboard incidents vulns camps).vuln_types = vuln_type_df vulns
      ∧ (runDashboard incidents vulns camps).status = status_df vulns
      ∧ (runDashboard incidents vulns camps).critical = critical_df vulns :=
  ⟨rfl, rfl, rfl, rfl, rfl, rfl, rfl, rfl, rfl, rfl, rfl⟩

/-- C7: when an aggregation's filter matches no row, its summary table is
empty (queries 3, 6 with its pivot, 7, 9; query 8 has no filter, so its
table is empty exactly when the vulnerability table itself is). -/
theorem empty_filter_yields_empty_tables (vulns : List Vulnerability) :
    (vulns.filter isOpenVuln = [] →
      vuln_hotspot_df vulns = [] ∧ vuln_age_df vulns = []
        ∧ vuln_age_pivot vulns = [] ∧ vuln_type_df vulns = []
        ∧ critical_df vulns = [])
    ∧ (vulns = [] → status_df vulns = []) := by
  constructor
  · intro h
    have hcrit : vulns.filter isCritOpen = [] := by
      rw [List.filter_eq_nil_iff]
      intro v hv hn
      have hopen : isOpenVuln v = true := by
        simp only [isCritOpen, Bool.and_eq_true] at hn
        exact hn.2
      exact (List.filter_eq_nil_iff.mp h) v hv hopen
    have hage : vuln_age_df vulns = [] := by
      simp [vuln_age_df, h, sortLe, uniqKeys, uniqGo]
    refine ⟨?_, hage, ?_, ?_, ?_⟩
    · simp [vuln_hotspot_df, h, sortLe, uniqKeys, uniqGo]
    · simp [vuln_age_pivot, hage, sortLe, uniqKeys, uniqGo]
    · simp [vuln_type_df, h, sortLe, uniqKeys, uniqGo]
    · simp [critical_df, hcrit, sortLe, uniqKeys, uniqGo]
  · intro h
    subst h
    rfl

/-- Witness for C7 at the empty vulnerability table. -/
theorem empty_filter_yields_empty_tables_witness :
    vuln_hotspot_df [] = [] ∧ status_df [] = [] :=
  ⟨((empty_filter_yields_empty_tables []).1 rfl).1,
    (empty_filter_yields_empty_tables []).2 rfl⟩

/-- C2: the long-form aging table is ordered by department and then by the
bands' canonical order (the ORDER BY's CASE, not alphabetical); every cell
of the pivoted matrix equals the raw count of its (department, band) pair,
so every missing pair is filled with zero; and in the end-to-end scenario
(days-open 10, 45, 95, 200, all Open in "IT") the matrix row for "IT" is
{1, 1, 1, 1} across the four bands in canonical order. -/
theorem vuln_age_order_and_pivot :
    (∀ vulns : List Vulnerability,
      (vuln_age_df vulns).Pairwise (fun a b => ageRowLe a b = true))
    ∧ (∀ (vulns : List Vulnerability) (d band : String),
        vuln_age_pivot_cell vulns d band
          = vulns.countP (fun v =>
              isOpenVuln v && (v.Department == d && ageGroup v.Days_Open == band)))
    ∧ (["< 30 days", "30-90 days", "91-180 days", "> 180 days"].map
        (vuln_age_pivot_cell agingScenarioVulns "IT") = [1, 1, 1, 1])
    ∧ vuln_age_pivot agingScenarioVulns = [("IT", [1, 1, 1, 1])] := by
  refine ⟨?_, vuln_age_pivot_cell_spec, ?_, ?_⟩
  · intro vulns
    simp only [vuln_age_df]
    exact pairwise_sortLe ageRowLe_trans ageRowLe_total _
  · decide
  · decide

/-! ## Helper lemmas: the MTTR query -/
theorem mem_mttr_df {incidents : List Incident} {r : MttrRow} :
    r ∈ mttr_df incidents ↔
      ∃ m, m ∈ (incidents.filter mttrKeep).map (fun i => strftimeYM i.Date_Reported)
        ∧ r = mttrRowOf incidents m := by
  simp only [mttr_df]
  constructor
  · intro hr
    rcases List.mem_map.mp hr with ⟨m, hm, rfl⟩
    exact ⟨m, mem_uniqKeys.mp (mem_sortLe.mp hm), rfl⟩
  · rintro ⟨m, hm, rfl⟩
    exact List.mem_map.mpr ⟨m, mem_sortLe.mpr (mem_uniqKeys.mpr hm), rfl⟩

theorem mttr_month_map (incidents : List Incident) :
    (mttr_df incidents).map (fun r => r.Month)
      = sortLe optStrLe (uniqKeys
          ((incidents.filter mttrKeep).map (fun i => strftimeYM i.Date_Reported))) := by
  simp only [mttr_df, List.map_map]
  have hcomp : ((fun r : MttrRow => r.Month) ∘ mttrRowOf incidents)
      = fun m => m := rfl
  rw [hcomp, List.map_id']

theorem mttr_group_filter (incidents : List Incident) (m : Option String) :
    (incidents.filter mttrKeep).filter (fun i => strftimeYM i.Date_Reported == m)
      = incidents.filter (fun i => mttrKeep i && strftimeYM i.Date_Reported == m) := by
  rw [List.filter_filter]
  exact congrArg (fun p => List.filter p incidents)
    (funext fun i => Bool.and_comm _ _)

/-- Each MTTR row's aggregates are computed from the incidents of its month
exactly as the query states. -/
theorem mttr_row_spec {incidents : List Incident} {r : MttrRow}
    (hr : r ∈ mttr_df incidents) :
    r.Total_Incidents = incidents.countP (fun i =>
        mttrKeep i && strftimeYM i.Date_Reported == r.Month)
      ∧ r.Critical_Incidents = incidents.countP (fun i =>
          (mttrKeep i && strftimeYM i.Date_Reported == r.Month)
            && i.Severity == "Critical")
      ∧ r.Avg_Response_Hours = round1
          ((((incidents.filter (fun i =>
              mttrKeep i && strftimeYM i.Date_Reported == r.Month)).map
                (fun i => i.Response_Time_Min.getD 0)).sum)
            / ((incidents.filter (fun i =>
              mttrKeep i && strftimeYM i.Date_Reported == r.Month)).length : ℚ)
            / 60) := by
  rcases mem_mttr_df.mp hr with ⟨m, _, rfl⟩
  have hM : (mttrRowOf incidents m).Month = m := rfl
  rw [hM]
  refine ⟨?_, ?_, ?_⟩
  · show ((incidents.filter mttrKeep).filter
        (fun i => strftimeYM i.Date_Reported == m)).length = _
    rw [mttr_group_filter, List.countP_eq_length_filter]
  · show ((incidents.filter mttrKeep).filter
        (fun i => strftimeYM i.Date_Reported == m)).countP
          (fun i => i.Severity == "Critical") = _
    rw [mttr_group_filter, List.countP_filter]
    exact congrArg (fun p => List.countP p incidents)
      (funext fun i => Bool.and_comm _ _)
  · show round1 _ = round1 _
    rw [mttr_group_filter]

/-- C4: the MTTR query filters to Resolved incidents with non-null response
time, groups them by report month, emits per month the total count, the
Critical count and `ROUND(AVG(Response_Time_Min)/60.0, 1)`, ordered by
month ascending (SQLite sorts a NULL month first); the months emitted are
exactly those occurring among the filtered incidents; and the end-to-end
scenario (3 Resolved incidents in 2024-01 with response times 30, 60 and
90 minutes) yields the single row (2024-01, 3, 0, 1.0). -/
theorem mttr_trend_correct :
    (∀ incidents : List Incident,
      ((mttr_df incidents).map (fun r => r.Month)).Pairwise
        (fun a b => optStrLe a b = true))
    ∧ (∀ (incidents : List Incident) (r : MttrRow), r ∈ mttr_df incidents →
        r.Total_Incidents = incidents.countP (fun i =>
            mttrKeep i && strftimeYM i.Date_Reported == r.Month)
          ∧ r.Critical_Incidents = incidents.countP (fun i =>
              (mttrKeep i && strftimeYM i.Date_Reported == r.Month)
                && i.Severity == "Critical")
          ∧ r.Avg_Response_Hours = round1
              ((((incidents.filter (fun i =>
                  mttrKeep i && strftimeYM i.Date_Reported == r.Month)).map
                    (fun i => i.Response_Time_Min.getD 0)).sum)
                / ((incidents.filter (fun i =>
                  mttrKeep i && strftimeYM i.Date_Reported == r.Month)).length : ℚ)
                / 60))
    ∧ (∀ (incidents : List Incident) (m : Option String),
        m ∈ (mttr_df incidents).map (fun r => r.Month) ↔
          m ∈ (incidents.filter mttrKeep).map (fun i => strftimeYM i.Date_Reported))
    ∧ (mttr_df mttrScenario).map
        (fun r => (r.Month, r.Total_Incidents, r.Critical_Incidents))
        = [(some "2024-01", 3, 0)]
    ∧ (mttr_df mttrScenario).map (fun r => r.Avg_Response_Hours) = [1] := by
  refine ⟨?_, fun incidents r hr => mttr_row_spec hr, ?_, ?_, ?_⟩
  · intro incidents
    rw [mttr_month_map]
    exact pairwise_sortLe optStrLe_trans optStrLe_total _
  · intro incidents m
    rw [mttr_month_map]
    exact ⟨fun h => mem_uniqKeys.mp (mem_sortLe.mp h),
      fun h => mem_sortLe.mpr (mem_uniqKeys.mpr h)⟩
  · decide
  · have hmonths : sortLe optStrLe (uniqKeys
        ((mttrScenario.filter mttrKeep).map (fun i => strftimeYM i.Date_Reported)))
        = [some "2024-01"] := by decide
    simp only [mttr_df]
    rw [hmonths]
    simp only [List.map_cons, List.map_nil]
    have hfilter : (mttrScenario.filter mttrKeep).filter
        (fun i => strftimeYM i.Date_Reported == some "2024-01")
        = mttrScenario.filter mttrKeep :=
      List.filter_eq_self.mpr (by decide)
    have havg : (mttrRowOf mttrScenario (some "2024-01")).Avg_Response_Hours = 1 := by
      simp only [mttrRowOf]
      rw [hfilter]
      have hmap : ((mttrScenario.filter mttrKeep).map
          (fun i => i.Response_Time_Min.getD 0)) = [30, 60, 90] := by decide
      have hlen : (mttrScenario.filter mttrKeep).length = 3 := by decide
      rw [hmap, hlen]
      norm_num [round1, List.sum_cons, List.sum_nil]
    rw [havg]

/-- Witness for C4's per-row clause, at the scenario input and its
2024-01 row. -/
theorem mttr_trend_correct_witness :
    (mttrRowOf mttrScenario (some "2024-01")).Total_Incidents
      = mttrScenario.countP (fun i =>
          mttrKeep i && strftimeYM i.Date_Reported == some "2024-01") := by
  have hmem : mttrRowOf mttrScenario (some "2024-01") ∈ mttr_df mttrScenario :=
    mem_mttr_df.mpr ⟨some "2024-01", by decide, rfl⟩
  exact (mttr_trend_correct.2.1 mttrScenario _ hmem).1

/-! ## Helper lemmas: the incident-type query -/
theorem countDescLe_total (a b : IncidentTypeRow) :
    countDescLe a b = true ∨ countDescLe b a = true :=
  byKeys_total natGeB_total strGeB_total a b

theorem countDescLe_trans (a b c : IncidentTypeRow) (h1 : countDescLe a b = true)
    (h2 : countDescLe b c = true) : countDescLe a c = true :=
  @byKeys_trans IncidentTypeRow Nat String _ (fun r => r.Count) natGeB
    (fun r => r.Incident_Type) strGeB
    (fun x y z hxy hyz => natGeB_trans x y z hxy hyz)
    (fun x y hxy hyx => natGeB_antisymm x y hxy hyx)
    (fun x y z hxy hyz => strGeB_trans x y z hxy hyz) a b c h1 h2

/-- Each emitted row carries the count of its type, the rounded percentage
of the grand total, and a type that occurs in the table. -/
theorem incident_type_row_spec {incidents : List Incident} {r : IncidentTypeRow}
    (hr : r ∈ incident_type_df incidents) :
    r.Count = incidents.countP (fun i => i.Incident_Type == r.Incident_Type)
      ∧ r.Percentage = round1 ((r.Count : ℚ) * 100 / (incidents.length : ℚ))
      ∧ r.Incident_Type ∈ incidents.map (fun i => i.Incident_Type) := by
  simp only [incident_type_df] at hr
  have hr2 := List.mem_of_mem_take hr
  have hr3 := mem_sortLe.mp hr2
  rcases List.mem_map.mp hr3 with ⟨t, ht, rfl⟩
  exact ⟨rfl, rfl, mem_uniqKeys.mp (mem_sortLe.mp ht)⟩

/-- A type that occurs in the table but is cut off by `LIMIT 6` has a count
no larger than any emitted row's: the emitted rows are the top 6. -/
theorem incident_type_top6 {incidents : List Incident} {t : String}
    (ht : t ∈ incidents.map (fun i => i.Incident_Type))
    (hnot : t ∉ (incident_type_df incidents).map (fun r => r.Incident_Type))
    {r : IncidentTypeRow} (hr : r ∈ incident_type_df incidents) :
    incidents.countP (fun i => i.Incident_Type == t) ≤ r.Count := by
  have hout : incident_type_df incidents
      = (sortLe countDescLe ((sortLe strLe (uniqKeys (incidents.map
          (fun i => i.Incident_Type)))).map (incTypeRowOf incidents))).take 6 := rfl
  set full := sortLe countDescLe ((sortLe strLe (uniqKeys (incidents.map
      (fun i => i.Incident_Type)))).map (incTypeRowOf incidents)) with hfull
  have hmem : incTypeRowOf incidents t ∈ full :=
    mem_sortLe.mpr (List.mem_map.mpr ⟨t, mem_sortLe.mpr (mem_uniqKeys.mpr ht), rfl⟩)
  have hpw : full.Pairwise (fun a b => countDescLe a b = true) :=
    pairwise_sortLe countDescLe_trans countDescLe_total _
  have hsplit : full.take 6 ++ full.drop 6 = full := List.take_append_drop 6 full
  rw [← hsplit] at hpw
  have hcross := (List.pairwise_append.mp hpw).2.2
  have hdrop : incTypeRowOf incidents t ∈ full.drop 6 := by
    rcases List.mem_append.mp (by rw [hsplit]; exact hmem) with h | h
    · exact absurd (List.mem_map.mpr ⟨incTypeRowOf incidents t, hout.symm ▸ h, rfl⟩) hnot
    · exact h
  have hle := hcross r (hout ▸ hr) (incTypeRowOf incidents t) hdrop
  have hcount : (incTypeRowOf incidents t).Count ≤ r.Count := by
    unfold countDescLe byKeys at hle
    by_cases hc : r.Count = (incTypeRowOf incidents t).Count
    · exact le_of_eq hc.symm
    · rw [if_neg hc] at hle
      simpa [natGeB] using hle
  exact hcount

/-- C3 (corrected): query 2 groups incidents by type, emits the count and
the percentage of the grand total rounded to one decimal, orders rows by
count descending and truncates to the 6 types of greatest count; but rows
with equal counts come out in descending type order (the engine's
deterministic tie order), not stable on input first-appearance order. -/
theorem incident_type_query_correct :
    (∀ incidents : List Incident,
      (incident_type_df incidents).Pairwise (fun a b => countDescLe a b = true))
    ∧ (∀ incidents : List Incident, (incident_type_df incidents).length ≤ 6)
    ∧ (∀ (incidents : List Incident) (r : IncidentTypeRow),
        r ∈ incident_type_df incidents →
          r.Count = incidents.countP (fun i => i.Incident_Type == r.Incident_Type)
            ∧ r.Percentage = round1 ((r.Count : ℚ) * 100 / (incidents.length : ℚ))
            ∧ r.Incident_Type ∈ incidents.map (fun i => i.Incident_Type))
    ∧ (∀ (incidents : List Incident) (t : String),
        t ∈ incidents.map (fun i => i.Incident_Type) →
        t ∉ (incident_type_df incidents).map (fun r => r.Incident_Type) →
        ∀ r ∈ incident_type_df incidents,
          incidents.countP (fun i => i.Incident_Type == t) ≤ r.Count) := by
  refine ⟨?_, ?_, fun incidents r hr => incident_type_row_spec hr,
    fun incidents t ht hnot r hr => incident_type_top6 ht hnot hr⟩
  · intro incidents
    simp only [incident_type_df]
    exact (pairwise_sortLe countDescLe_trans countDescLe_total _).sublist
      (List.take_sublist 6 _)
  · intro incidents
    simp only [incident_type_df]
    exact List.length_take_le 6 _

/-- Witness for C3 (amended): the row-spec clause applied to a one-incident
table. -/
theorem incident_type_query_correct_witness :
    (incTypeRowOf [mkTypedIncident "A"] "A").Count
      = List.countP (fun i => i.Incident_Type == "A") [mkTypedIncident "A"] := by
  have hdf : incident_type_df [mkTypedIncident "A"]
      = [incTypeRowOf [mkTypedIncident "A"] "A"] := rfl
  have hmem : incTypeRowOf [mkTypedIncident "A"] "A"
      ∈ incident_type_df [mkTypedIncident "A"] := by
    rw [hdf]
    exact List.mem_cons_self _ _
  exact (incident_type_query_correct.2.2.1 _ _ hmem).1

/-- Counterexample for C3 as stated: with the two types first appearing in
input order "A" then "B" (equal counts 1), the query emits "B" before "A",
so equal-count rows are not stable on input first-appearance order. -/
theorem incident_type_tie_counterexample :
    (incident_type_df [mkTypedIncident "A", mkTypedIncident "B"]).map
        (fun r => (r.Incident_Type, r.Count)) = [("B", 1), ("A", 1)]
      ∧ ([("B", 1), ("A", 1)] : List (String × Nat)) ≠ [("A", 1), ("B", 1)] := by
  constructor
  · decide
  · decide

/-! ## Helper lemmas: percentage sums -/
theorem streq_decide (a b : String) : (a == b) = decide (a = b) := by
  by_cases h : a = b
  · subst h
    simp
  · simp [h]

theorem sum_map_natCast_mul (l : List ℕ) (c : ℚ) :
    (l.map (fun n : ℕ => (n : ℚ) * c)).sum = (l.sum : ℚ) * c := by
  induction l with
  | nil => simp
  | cons a l ih =>
    simp only [List.map_cons, List.sum_cons, ih]
    rw [Nat.cast_add]
    ring

/-- The exact (un-rounded) percentages over all groups sum to exactly 100. -/
theorem incident_type_exact_sum {incidents : List Incident} (hne : incidents ≠ []) :
    ((sortLe strLe (uniqKeys (incidents.map (fun i => i.Incident_Type)))).map
      (fun t => (incidents.countP (fun i => i.Incident_Type == t) : ℚ)
        * 100 / (incidents.length : ℚ))).sum = 100 := by
  rw [List.Perm.sum_eq ((sortLe_perm strLe _).map _)]
  have hstep : ∀ t ∈ uniqKeys (incidents.map (fun i => i.Incident_Type)),
      (incidents.countP (fun i => i.Incident_Type == t) : ℚ)
          * 100 / (incidents.length : ℚ)
        = ((fun s => List.countP (fun x => decide (x = s))
              (incidents.map (fun i => i.Incident_Type))) t : ℚ)
          * (100 / (incidents.length : ℚ)) := by
    intro t _
    have hp : incidents.countP (fun i => i.Incident_Type == t)
        = List.countP (fun x => decide (x = t))
            (incidents.map (fun i => i.Incident_Type)) := by
      rw [List.countP_map]
      exact congrArg (fun p => List.countP p incidents)
        (funext fun i => streq_decide _ _)
    rw [hp, mul_div_assoc]
  rw [List.map_congr_left hstep]
  rw [show ((fun t => ((fun s => List.countP (fun x => decide (x = s))
        (incidents.map (fun i => i.Incident_Type))) t : ℚ)
        * (100 / (incidents.length : ℚ))))
      = (fun n : ℕ => (n : ℚ) * (100 / (incidents.length : ℚ)))
        ∘ (fun s => List.countP (fun x => decide (x = s))
            (incidents.map (fun i => i.Incident_Type))) from rfl]
  rw [← List.map_map, sum_map_natCast_mul,
    sum_countP_uniqKeys (incidents.map (fun i => i.Incident_Type)),
    List.length_map]
  have h0 : (incidents.length : ℚ) ≠ 0 := by
    have hp : 0 < incidents.length := List.length_pos.mpr hne
    exact_mod_cast Nat.pos_iff_ne_zero.mp hp
  field_simp

/-- Rounding each term of a nonnegative list moves the sum by at most
`length/20`. -/
theorem sum_round1_err : ∀ (qs : List ℚ), (∀ q ∈ qs, 0 ≤ q) →
    |(qs.map round1).sum - qs.sum| ≤ (qs.length : ℚ) * (1 / 20)
  | [], _ => by simp
  | q :: qs, hq => by
    simp only [List.map_cons, List.sum_cons, List.length_cons]
    have h1 := abs_round1_sub_le q (hq q (List.mem_cons_self q qs))
    have h2 := sum_round1_err qs (fun x hx => hq x (List.mem_cons_of_mem _ hx))
    have h3 : |round1 q + ((qs.map round1).sum) - (q + qs.sum)|
        ≤ |round1 q - q| + |(qs.map round1).sum - qs.sum| := by
      have hre : round1 q + (qs.map round1).sum - (q + qs.sum)
          = (round1 q - q) + ((qs.map round1).sum - qs.sum) := by ring
      rw [hre]
      exact abs_add _ _
    have h4 : ((qs.length : ℚ) + 1) * (1 / 20)
        = 1 / 20 + (qs.length : ℚ) * (1 / 20) := by ring
    push_cast
    linarith

theorem sum_take_le {l : List ℚ} (h : ∀ q ∈ l, 0 ≤ q) (n : Nat) :
    (l.take n).sum ≤ l.sum := by
  conv_rhs => rw [← List.take_append_drop n l]
  rw [List.sum_append]
  have h0 : 0 ≤ (l.drop n).sum :=
    List.sum_nonneg (fun q hq => h q (List.mem_of_mem_drop hq))
  linarith

/-- C5 (corrected): over a non-empty incident table, when at most 6 types
occur (no truncation) the emitted percentages sum to 100 up to rounding
error (within 0.3); in general, truncated or not, the sum is at most
100.3 — but it can exceed 100 under truncation, so the claimed bound of
100 is wrong. -/
theorem percentage_sum_bounds (incidents : List Incident) (hne : incidents ≠ []) :
    ((uniqKeys (incidents.map (fun i => i.Incident_Type))).length ≤ 6 →
      |((incident_type_df incidents).map (fun r => r.Percentage)).sum - 100| ≤ 3 / 10)
    ∧ ((incident_type_df incidents).map (fun r => r.Percentage)).sum ≤ 100 + 3 / 10 := by
  set types := sortLe strLe (uniqKeys (incidents.map (fun i => i.Incident_Type)))
    with htypes
  set grouped := types.map (incTypeRowOf incidents) with hgrouped
  set full := sortLe countDescLe grouped with hfull
  have hout : incident_type_df incidents = full.take 6 := rfl
  set E := full.map (fun r => (r.Count : ℚ) * 100 / (incidents.length : ℚ)) with hE
  have hEnonneg : ∀ q ∈ E, 0 ≤ q := by
    intro q hq
    rcases List.mem_map.mp hq with ⟨r, _, rfl⟩
    have hlen0 : (0 : ℚ) ≤ (incidents.length : ℚ) := by positivity
    positivity
  have hPfull : full.map (fun r => r.Percentage) = E.map round1 := by
    rw [hE, List.map_map]
    refine List.map_congr_left ?_
    intro r hrf
    have hrg : r ∈ grouped := mem_sortLe.mp (hfull ▸ hrf)
    rcases List.mem_map.mp hrg with ⟨t, _, rfl⟩
    rfl
  have hEsum : E.sum = 100 := by
    rw [hE, List.Perm.sum_eq ((sortLe_perm countDescLe grouped).map _), hgrouped,
      List.map_map]
    exact incident_type_exact_sum hne
  constructor
  · intro h6
    have hfull_len : full.length ≤ 6 := by
      rw [hfull, length_sortLe, hgrouped, List.length_map, htypes, length_sortLe]
      exact h6
    have htake : full.take 6 = full := List.take_of_length_le hfull_len
    rw [hout, htake, hPfull]
    have herr := sum_round1_err E hEnonneg
    have hlen : (E.length : ℚ) ≤ 6 := by
      have hEl : E.length = full.length := by rw [hE, List.length_map]
      rw [hEl]
      exact_mod_cast hfull_len
    rw [hEsum] at herr
    calc |(E.map round1).sum - 100| ≤ (E.length : ℚ) * (1 / 20) := herr
      _ ≤ 6 * (1 / 20) := by nlinarith
      _ = 3 / 10 := by norm_num
  · rw [hout]
    have hmp : (full.take 6).map (fun r => r.Percentage) = (E.take 6).map round1 := by
      rw [List.map_take, hPfull, List.map_take]
    rw [hmp]
    have h1 := sum_round1_err (E.take 6)
      (fun q hq => hEnonneg q (List.mem_of_mem_take hq))
    have h2 : (E.take 6).sum ≤ E.sum := sum_take_le hEnonneg 6
    have h3 : ((E.take 6).length : ℚ) ≤ 6 := by
      exact_mod_cast List.length_take_le 6 E
    have h4 : |((E.take 6).map round1).sum - (E.take 6).sum| ≤ 6 * (1 / 20) := by
      calc |((E.take 6).map round1).sum - (E.take 6).sum|
          ≤ ((E.take 6).length : ℚ) * (1 / 20) := h1
        _ ≤ 6 * (1 / 20) := by nlinarith
    have h5 := (abs_le.mp h4).2
    rw [hEsum] at h2
    linarith

/-- Witness for C5 (amended) at a one-incident table. -/
theorem percentage_sum_bounds_witness :
    |((incident_type_df [mkTypedIncident "A"]).map (fun r => r.Percentage)).sum
      - 100| ≤ 3 / 10 :=
  (percentage_sum_bounds [mkTypedIncident "A"] (List.cons_ne_nil _ _)).1 (by decide)

set_option maxRecDepth 40000 in
/-- Counterexample for C5's truncation clause: 511 incidents over 7 types
(counts 220, 58, 58, 58, 58, 58 and 1).  Truncation to the top 6 occurs
and the emitted Percentage column sums to
`round1(22000/511) + 5 * round1(5800/511) = 43.1 + 5 * 11.4 = 100.1 > 100`. -/
theorem percentage_sum_truncation_counterexample :
    6 < (uniqKeys (truncIncidents.map (fun i => i.Incident_Type))).length
      ∧ 100 < ((incident_type_df truncIncidents).map (fun r => r.Percentage)).sum := by
  constructor
  · decide
  · have hlen : truncIncidents.length = 511 := by decide
    have hc : (incident_type_df truncIncidents).map (fun r => r.Count)
        = [220, 58, 58, 58, 58, 58] := by decide
    have hmapP : (incident_type_df truncIncidents).map (fun r => r.Percentage)
        = ((incident_type_df truncIncidents).map (fun r => r.Count)).map
            (fun c : ℕ => round1 ((c : ℚ) * 100 / ((511 : ℕ) : ℚ))) := by
      rw [List.map_map]
      refine List.map_congr_left ?_
      intro r hr
      have h := (incident_type_row_spec hr).2.1
      rw [hlen] at h
      exact h
    rw [hmapP, hc]
    have hv1 : round1 (((220 : ℕ) : ℚ) * 100 / ((511 : ℕ) : ℚ)) = 431 / 10 := by
      norm_num [round1]
    have hv2 : round1 (((58 : ℕ) : ℚ) * 100 / ((511 : ℕ) : ℚ)) = 114 / 10 := by
      norm_num [round1]
    simp only [List.map_cons, List.map_nil, hv1, hv2, List.sum_cons, List.sum_nil]
    norm_num

end SecDash
